import Mathlib

/-!
Shallow embedding of the multi-step web-to-case form controller
(src/script.js, class MultiStepForm).

JavaScript strings are modelled as lists of characters (`Str`), and each
method of the controller that the specification's claims mention becomes a
Lean function over explicit state.  Error messages are Lean `String`
literals copied verbatim from the source.
-/

namespace WebToCase

/-- A JavaScript string, modelled as its list of characters. -/
abbrev Str := List Char

/-- The character class matched by the JavaScript regular-expression escape
backslash-s and removed by String.prototype.trim: WhiteSpace together with
LineTerminator code points. -/
def isJsSpace (c : Char) : Bool :=
  c == ' ' || c == '\t' || c == '\n' || c == '\r' ||
  c == '\u000b' || c == '\u000c' || c == '\u00a0' || c == '\u1680' ||
  ('\u2000' ≤ c && c ≤ '\u200a') || c == '\u2028' || c == '\u2029' ||
  c == '\u202f' || c == '\u205f' || c == '\u3000' || c == '\ufeff'

/-- JavaScript `s.trim()`: removes whitespace from both ends. -/
def trimL (s : Str) : Str :=
  ((s.dropWhile isJsSpace).reverse.dropWhile isJsSpace).reverse

/-- A character admitted by the regex character class excluding whitespace
and the at sign (the class written in the source as caret-backslash-s-at,
used in all three segments of the e-mail pattern). -/
def okChar (c : Char) : Bool := !(isJsSpace c) && !(c == '@')

/-- Split a string at its first at sign: returns the text before it and the
text after it, or none when no at sign occurs.  The e-mail regex's local
part cannot contain an at sign, so the regex can only match by splitting
the string exactly here. -/
def splitLocal : Str → Option (Str × Str)
  | [] => none
  | c :: rest =>
      if c == '@' then some ([], rest)
      else
        match splitLocal rest with
        | some (a, b) => some (c :: a, b)
        | none => none

/-- True when the list contains a dot at a position that is not the last
position (helper for the domain pattern). -/
def dotBeforeEnd : List Char → Bool
  | [] => false
  | [_] => false
  | c :: rest => c == '.' || dotBeforeEnd rest

/-- True when the list splits as d ++ dot ++ t with d and t non-empty:
the shape required of the regex's domain segment. -/
def hasInnerDot : List Char → Bool
  | [] => false
  | _ :: rest => dotBeforeEnd rest

/-- MultiStepForm.isValidEmail (src/script.js:304-307): tests the anchored
regex consisting of one-or-more non-space-non-at characters, an at sign,
one-or-more non-space-non-at characters, a dot, and one-or-more
non-space-non-at characters. -/
def isValidEmail (l : Str) : Bool :=
  match splitLocal l with
  | none => false
  | some (a, b) => !a.isEmpty && a.all okChar && b.all okChar && hasInnerDot b

/-- Outcome of a step validation: the returned boolean together with the
message passed to showError when the step is rejected. -/
structure ValidationResult where
  valid : Bool
  message : Option String
deriving Repr, DecidableEq

/-- Error message shown for a missing name (src/script.js:86). -/
def msgName : String := "Please enter your full name"

/-- Error message shown for a missing or malformed e-mail (src/script.js:92). -/
def msgEmail : String := "Please enter a valid email address"

/-- Error message shown for a missing department category (src/script.js:114). -/
def msgRecordType : String := "Please select a department category"

/-- Error message shown for a missing request type (src/script.js:120). -/
def msgType : String := "Please select a request type"

/-- Error message shown for a missing specific issue (src/script.js:126). -/
def msgReason : String := "Please select a specific issue"

/-- Error message shown for a missing priority (src/script.js:132 and 347). -/
def msgPriority : String := "Please select a priority level"

/-- Error message shown for a missing subject (src/script.js:137). -/
def msgSubject : String := "Please enter a subject for your request"

/-- Error message shown for a missing or too-short description (src/script.js:143). -/
def msgDescription : String := "Please provide a detailed description (at least 10 characters)"

/-- The raw values of the step-1 input fields. -/
structure Step1Fields where
  name : Str
  email : Str
deriving Repr, DecidableEq

/-- The raw values of the step-2 input fields. -/
structure Step2Fields where
  recordType : Str
  type : Str
  reason : Str
  priority : Str
  subject : Str
  description : Str
deriving Repr, DecidableEq

/-- MultiStepForm.validateStep1 (src/script.js:81-99): trims name and
e-mail, rejects an empty name, then an empty or invalid e-mail, in that
order. -/
def validateStep1 (f : Step1Fields) : ValidationResult :=
  let name := trimL f.name
  let email := trimL f.email
  if name.isEmpty then ⟨false, some msgName⟩
  else if email.isEmpty || !(isValidEmail email) then ⟨false, some msgEmail⟩
  else ⟨true, none⟩

/-- MultiStepForm.validateStep2 (src/script.js:105-150): reads the four
select values raw, trims subject and description, and checks the six
fields in source order, the description also against a 10-character
minimum. -/
def validateStep2 (f : Step2Fields) : ValidationResult :=
  let subject := trimL f.subject
  let description := trimL f.description
  if f.recordType.isEmpty then ⟨false, some msgRecordType⟩
  else if f.type.isEmpty then ⟨false, some msgType⟩
  else if f.reason.isEmpty then ⟨false, some msgReason⟩
  else if f.priority.isEmpty then ⟨false, some msgPriority⟩
  else if subject.isEmpty then ⟨false, some msgSubject⟩
  else if description.isEmpty || description.length < 10 then ⟨false, some msgDescription⟩
  else ⟨true, none⟩

/-- The navigation state held by the controller: the current step index and
the total step count (src/script.js:8-9 initialises them to 1 and 3). -/
structure NavState where
  currentStep : Nat
  totalSteps : Nat
deriving Repr, DecidableEq

/-- MultiStepForm.nextStep (src/script.js:155-164): increments currentStep
only when it is below totalSteps. -/
def nextStep (s : NavState) : NavState :=
  if s.currentStep < s.totalSteps then { s with currentStep := s.currentStep + 1 } else s

/-- MultiStepForm.prevStep (src/script.js:169-178): decrements currentStep
only when it is above 1. -/
def prevStep (s : NavState) : NavState :=
  if 1 < s.currentStep then { s with currentStep := s.currentStep - 1 } else s

/-- A navigation event: an advance (nextStep) or a retreat (prevStep). -/
inductive NavOp where
  | advance
  | retreat
deriving Repr, DecidableEq

/-- Apply one navigation event to the navigation state. -/
def applyNav (s : NavState) : NavOp → NavState
  | .advance => nextStep s
  | .retreat => prevStep s

/-- Run a sequence of navigation events from a starting state. -/
def runNav (s : NavState) (ops : List NavOp) : NavState := ops.foldl applyNav s

/-- The navigation state built by the constructor (src/script.js:7-12). -/
def initialNav : NavState := ⟨1, 3⟩

/-- MultiStepForm.truncateText (src/script.js:294-297): returns the text
unchanged when its length is within the bound, else its first characters up
to the bound followed by three dots. -/
def truncateText (text : Str) (bound : Nat) : Str :=
  if text.length ≤ bound then text else text.take bound ++ ['.', '.', '.']

/-- MultiStepForm.clearErrors (src/script.js:332-335): removes any shown
error message from the display. -/
def clearErrors (_d : Option String) : Option String := none

/-- MultiStepForm.showError (src/script.js:313-327): first clears any
previous message, then shows the new one. -/
def showError (m : String) (d : Option String) : Option String :=
  match clearErrors d with
  | _ => some m

/-- Effect of a step validation on the error display: a failing validation
shows its message through showError, a passing one runs clearErrors
(src/script.js:85-97 and 113-148). -/
def runValidation (r : ValidationResult) (d : Option String) : Bool × Option String :=
  match r.message with
  | some m => (r.valid, showError m d)
  | none => (r.valid, clearErrors d)

/-- The step-1 field checks in source order, each paired with its failure
message; a check component is true when its field fails. -/
def step1Checks (f : Step1Fields) : List (Bool × String) :=
  [ ((trimL f.name).isEmpty, msgName),
    ((trimL f.email).isEmpty || !(isValidEmail (trimL f.email)), msgEmail) ]

/-- The step-2 field checks in source order, each paired with its failure
message; a check component is true when its field fails. -/
def step2Checks (f : Step2Fields) : List (Bool × String) :=
  [ (f.recordType.isEmpty, msgRecordType),
    (f.type.isEmpty, msgType),
    (f.reason.isEmpty, msgReason),
    (f.priority.isEmpty, msgPriority),
    ((trimL f.subject).isEmpty, msgSubject),
    ((trimL f.description).isEmpty || (trimL f.description).length < 10, msgDescription) ]

/-- The message of the first failing check in a list, none when every check
passes. -/
def firstFailing : List (Bool × String) → Option String
  | [] => none
  | (b, m) :: rest => if b then some m else firstFailing rest

/-- A select element: its options (value and display text of each) and the
index of the selected option, negative when nothing is selected. -/
structure SelectEl where
  options : List (Str × Str)
  selectedIndex : Int
deriving Repr, DecidableEq

/-- The selected option of a select element, if the index is in range. -/
def selectedOption (s : SelectEl) : Option (Str × Str) :=
  if 0 ≤ s.selectedIndex then s.options.get? s.selectedIndex.toNat else none

/-- MultiStepForm.getSelectText (src/script.js:282-286): the display text
of the selected option, empty when no option is selected. -/
def getSelectText (s : SelectEl) : Str :=
  match selectedOption s with
  | some o => o.2
  | none => []

/-- The DOM value of a select element: the value of the selected option,
empty when no option is selected (read at src/script.js:270). -/
def selectValue (s : SelectEl) : Str :=
  match selectedOption s with
  | some o => o.1
  | none => []

/-- The form fields read by updateReview: the plain inputs as raw strings
and the four dropdowns as select elements. -/
structure ReviewFields where
  name : Str
  email : Str
  phone : Str
  company : Str
  recordType : SelectEl
  type : SelectEl
  reason : SelectEl
  priority : SelectEl
  subject : Str
  description : Str
deriving Repr, DecidableEq

/-- The review section contents written by updateReview. -/
structure ReviewSnapshot where
  name : Str
  email : Str
  phone : Str
  company : Str
  recordType : Str
  type : Str
  reason : Str
  priority : Str
  subject : Str
  description : Str
deriving Repr, DecidableEq

/-- The placeholder shown for a missing text value (src/script.js:254). -/
def notProvided : Str := "Not provided".toList

/-- The placeholder shown for a missing selection (src/script.js:264). -/
def notSelected : Str := "Not selected".toList

/-- JavaScript `v || d` on strings: d when v is empty, else v. -/
def orDefault (v d : Str) : Str := if v.isEmpty then d else v

/-- MultiStepForm.updateReview (src/script.js:251-275): projects the field
values into the review section, using the display text for the
recordType, type and reason selects, the raw value for priority, and
truncating the description to 150 characters. -/
def updateReview (f : ReviewFields) : ReviewSnapshot :=
  { name := orDefault f.name notProvided,
    email := orDefault f.email notProvided,
    phone := orDefault f.phone notProvided,
    company := orDefault f.company notProvided,
    recordType := orDefault (getSelectText f.recordType) notSelected,
    type := orDefault (getSelectText f.type) notSelected,
    reason := orDefault (getSelectText f.reason) notSelected,
    priority := orDefault (selectValue f.priority) notSelected,
    subject := orDefault f.subject notProvided,
    description := orDefault (truncateText f.description 150) notProvided }

/-- The controller state visible to the review projection: navigation plus
the form fields. -/
structure FormState where
  nav : NavState
  fields : ReviewFields
deriving Repr, DecidableEq

/-- The review projection as a function of the whole controller state:
updateReview reads only the field values. -/
def projectReview (s : FormState) : ReviewSnapshot := updateReview s.fields

/-- Controller state together with the review display it writes to. -/
structure UIState where
  form : FormState
  reviewDisplay : ReviewSnapshot
deriving Repr, DecidableEq

/-- Running updateReview against the UI: it rewrites the review display
from the current fields and writes nothing else (src/script.js:251-275
only assigns textContent of review elements). -/
def runUpdateReview (u : UIState) : UIState :=
  { u with reviewDisplay := projectReview u.form }

/-- The state read and written by form submission: the priority select's
value, whether the default form action was suppressed, the error display,
whether the submit button is disabled, and whether the submitted (success)
display state was reached. -/
structure SubmitState where
  priorityValue : Str
  defaultPrevented : Bool
  display : Option String
  submitBtnDisabled : Bool
  submitted : Bool
deriving Repr, DecidableEq

/-- MultiStepForm.handleFormSubmission (src/script.js:341-362): with an
empty priority it prevents the default action, shows the priority message
and returns early; otherwise it disables the submit button and the
submitted display state is reached (the scheduled success message). -/
def handleFormSubmission (s : SubmitState) : SubmitState :=
  if s.priorityValue.isEmpty then
    { s with defaultPrevented := true, display := showError msgPriority s.display }
  else
    { s with submitBtnDisabled := true, submitted := true }

/-- The document state seen by autosave: the ten field element values and
the controller's current step. -/
structure PageState where
  name : Str
  email : Str
  phone : Str
  company : Str
  recordType : Str
  type : Str
  reason : Str
  priority : Str
  subject : Str
  description : Str
  currentStep : Nat
deriving Repr, DecidableEq

/-- The snapshot object built by saveFormData (src/script.js:463-475). -/
structure SavedData where
  name : Str
  email : Str
  phone : Str
  company : Str
  recordType : Str
  type : Str
  reason : Str
  priority : Str
  subject : Str
  description : Str
  currentStep : Nat
deriving Repr, DecidableEq

/-- MultiStepForm.saveFormData (src/script.js:462-482): copies every field
value and the current step into the backup object. -/
def saveFormData (p : PageState) : SavedData :=
  ⟨p.name, p.email, p.phone, p.company, p.recordType, p.type, p.reason,
   p.priority, p.subject, p.description, p.currentStep⟩

/-- Restoration of one field (src/script.js:492-499): the element keeps its
value unless the saved value is truthy (non-empty). -/
def loadField (saved current : Str) : Str :=
  if saved.isEmpty then current else saved

/-- MultiStepForm.loadFormData (src/script.js:487-514): with a backup
present, restores every non-empty saved field value, skips the currentStep
key, and re-applies the saved priority value through the badge; with no
backup it does nothing. -/
def loadFormData (backup : Option SavedData) (p : PageState) : PageState :=
  match backup with
  | none => p
  | some d =>
      { name := loadField d.name p.name,
        email := loadField d.email p.email,
        phone := loadField d.phone p.phone,
        company := loadField d.company p.company,
        recordType := loadField d.recordType p.recordType,
        type := loadField d.type p.type,
        reason := loadField d.reason p.reason,
        priority := loadField d.priority p.priority,
        subject := loadField d.subject p.subject,
        description := loadField d.description p.description,
        currentStep := p.currentStep }

/-- The e-mail pattern as the specification words it: the string is
local at-sign domain dot tld with a non-empty whitespace-free local part,
domain and top-level segment, the segments being delimited by the at sign
and so not containing one. -/
def emailPatternSpec (l : Str) : Prop :=
  ∃ a d t : Str,
    l = a ++ '@' :: (d ++ '.' :: t) ∧
    a ≠ [] ∧ d ≠ [] ∧ t ≠ [] ∧
    (∀ c ∈ a, okChar c = true) ∧ (∀ c ∈ d, okChar c = true) ∧ (∀ c ∈ t, okChar c = true)

/-! Helper lemmas. -/

/-- One navigation event keeps the step within bounds and the total fixed. -/
theorem applyNav_bounds (s : NavState) (op : NavOp)
    (h1 : 1 ≤ s.currentStep) (h2 : s.currentStep ≤ s.totalSteps) :
    (1 ≤ (applyNav s op).currentStep ∧
      (applyNav s op).currentStep ≤ (applyNav s op).totalSteps) ∧
    (applyNav s op).totalSteps = s.totalSteps := by
  cases op with
  | advance =>
      simp only [applyNav, nextStep]
      split_ifs with h <;> simp <;> omega
  | retreat =>
      simp only [applyNav, prevStep]
      split_ifs with h <;> simp <;> omega

/-- A run of navigation events keeps the step within bounds. -/
theorem runNav_bounds (ops : List NavOp) (s : NavState)
    (h1 : 1 ≤ s.currentStep) (h2 : s.currentStep ≤ s.totalSteps) :
    1 ≤ (runNav s ops).currentStep ∧
      (runNav s ops).currentStep ≤ (runNav s ops).totalSteps := by
  induction ops generalizing s with
  | nil => exact ⟨h1, h2⟩
  | cons op rest ih =>
      have hstep := applyNav_bounds s op h1 h2
      exact ih (applyNav s op) hstep.1.1 hstep.1.2

end WebToCase

namespace WebToCase

/-- Claim C2: starting from the initial state (currentStep 1, totalSteps 3),
any sequence of advance and retreat events keeps currentStep within
1 and totalSteps; nextStep never moves the step beyond totalSteps and
prevStep never moves it below 1 (each is a no-op at its boundary); and from
step 3 two retreats settle at step 1, a further retreat being a no-op. -/
theorem c2_navigation_bounds (ops : List NavOp) :
    (1 ≤ (runNav initialNav ops).currentStep ∧
      (runNav initialNav ops).currentStep ≤ (runNav initialNav ops).totalSteps) ∧
    (∀ s : NavState, (nextStep s).currentStep ≤ s.totalSteps ∨ nextStep s = s) ∧
    (∀ s : NavState, 1 ≤ (prevStep s).currentStep ∨ prevStep s = s) ∧
    prevStep (prevStep ⟨3, 3⟩) = ⟨1, 3⟩ ∧
    prevStep ⟨1, 3⟩ = ⟨1, 3⟩ := by
  refine ⟨runNav_bounds ops initialNav (by decide) (by decide), ?_, ?_, by decide, by decide⟩
  · intro s
    by_cases h : s.currentStep < s.totalSteps
    · exact Or.inl (by simp [nextStep, h]; omega)
    · exact Or.inr (by simp [nextStep, h])
  · intro s
    by_cases h : 1 < s.currentStep
    · exact Or.inl (by simp [prevStep, h]; omega)
    · exact Or.inr (by simp [prevStep, h])

/-- Claim C4: truncate(s,150) returns s unchanged when s has at most 150
characters, else the first 150 characters followed by the three-dot
ellipsis marker, and the operation is idempotent. -/
theorem c4_truncate_law (s : Str) :
    (s.length ≤ 150 → truncateText s 150 = s) ∧
    (150 < s.length → truncateText s 150 = s.take 150 ++ ['.', '.', '.']) ∧
    truncateText (truncateText s 150) 150 = truncateText s 150 := by
  refine ⟨?_, ?_, ?_⟩
  · intro h; simp [truncateText, h]
  · intro h; simp [truncateText, Nat.not_le.mpr h]
  · by_cases h : s.length ≤ 150
    · simp [truncateText, h]
    · have hlen : (s.take 150).length = 150 := by
        rw [List.length_take]; omega
      have hfull : (s.take 150 ++ ['.', '.', '.']).length = 153 := by
        rw [List.length_append, hlen]; rfl
      simp only [truncateText, if_neg h, hfull]
      have : ¬ (153 ≤ 150) := by omega
      rw [if_neg this, List.take_append_eq_append_take, hlen]
      simp [List.take_take]

/-- Witness for C4 at a string of 151 characters. -/
theorem c4_truncate_law_witness :
    150 < (List.replicate 151 'a').length ∧
    truncateText (List.replicate 151 'a') 150 =
      (List.replicate 151 'a').take 150 ++ ['.', '.', '.'] :=
  ⟨by simp, (c4_truncate_law (List.replicate 151 'a')).2.1 (by simp)⟩

/-- splitLocal recovers a decomposition at an at sign whose prefix avoids
the at sign. -/
theorem splitLocal_append (a b : Str) (ha : '@' ∉ a) :
    splitLocal (a ++ '@' :: b) = some (a, b) := by
  induction a with
  | nil => simp [splitLocal]
  | cons c a ih =>
      have hc : ¬ (c = '@') := fun h => ha (h ▸ List.mem_cons_self c a)
      have ha' : '@' ∉ a := fun h => ha (List.mem_cons_of_mem c h)
      simp [splitLocal, hc, ih ha']

/-- A successful splitLocal yields exactly the text before and after the
first at sign. -/
theorem splitLocal_eq (l : Str) (a b : Str) (h : splitLocal l = some (a, b)) :
    l = a ++ '@' :: b ∧ '@' ∉ a := by
  induction l generalizing a b with
  | nil => simp [splitLocal] at h
  | cons c rest ih =>
      by_cases hc : c = '@'
      · subst hc
        simp only [splitLocal, beq_self_eq_true, if_true, Option.some.injEq,
          Prod.mk.injEq] at h
        obtain ⟨rfl, rfl⟩ := h
        exact ⟨rfl, by simp⟩
      · simp only [splitLocal] at h
        rw [if_neg (by simp [hc] : ¬ ((c == '@') = true))] at h
        cases hr : splitLocal rest with
        | none => rw [hr] at h; simp at h
        | some p =>
            obtain ⟨a', b'⟩ := p
            rw [hr] at h
            simp only [Option.some.injEq, Prod.mk.injEq] at h
            obtain ⟨rfl, rfl⟩ := h
            obtain ⟨hrest, hnotmem⟩ := ih a' b' hr
            constructor
            · simp [List.cons_append, hrest]
            · intro hmem
              rcases List.mem_cons.mp hmem with h1 | h1
              · exact hc h1.symm
              · exact hnotmem h1

/-- dotBeforeEnd holds exactly when a dot occurs before the last position. -/
theorem dotBeforeEnd_iff (l : List Char) :
    dotBeforeEnd l = true ↔ ∃ d t, l = d ++ '.' :: t ∧ t ≠ [] := by
  induction l with
  | nil =>
      constructor
      · intro h; simp [dotBeforeEnd] at h
      · rintro ⟨d, t, h, ht⟩
        exact absurd h.symm (by simp)
  | cons c rest ih =>
      cases rest with
      | nil =>
          constructor
          · intro h; simp [dotBeforeEnd] at h
          · rintro ⟨d, t, h, ht⟩
            have hlen := congrArg List.length h
            simp only [List.length_cons, List.length_nil, List.length_append] at hlen
            have hzero : t.length = 0 := by omega
            exact absurd (List.eq_nil_of_length_eq_zero hzero) ht
      | cons c2 r2 =>
          rw [dotBeforeEnd]
          constructor
          · intro h
            rcases Bool.or_eq_true _ _ |>.mp h with h1 | h1
            · have hc : c = '.' := beq_iff_eq.mp h1
              subst hc
              refine ⟨[], c2 :: r2, rfl, ?_⟩
              exact List.cons_ne_nil c2 r2
            · obtain ⟨d, t, hrest, ht⟩ := ih.mp h1
              exact ⟨c :: d, t, by simp [List.cons_append, hrest], ht⟩
          · rintro ⟨d, t, h, ht⟩
            cases d with
            | nil =>
                simp only [List.nil_append, List.cons.injEq] at h
                apply Bool.or_eq_true _ _ |>.mpr
                exact Or.inl (beq_iff_eq.mpr h.1)
            | cons e d' =>
                simp only [List.cons_append, List.cons.injEq] at h
                apply Bool.or_eq_true _ _ |>.mpr
                exact Or.inr (ih.mpr ⟨d', t, h.2, ht⟩)
          · exact fun hcon => List.noConfusion hcon

/-- hasInnerDot holds exactly when the list splits around a dot with both
sides non-empty. -/
theorem hasInnerDot_iff (l : List Char) :
    hasInnerDot l = true ↔ ∃ d t, l = d ++ '.' :: t ∧ d ≠ [] ∧ t ≠ [] := by
  cases l with
  | nil =>
      constructor
      · intro h; simp [hasInnerDot] at h
      · rintro ⟨d, t, h, hd, ht⟩
        exact absurd h.symm (by simp)
  | cons c rest =>
      rw [hasInnerDot, dotBeforeEnd_iff]
      constructor
      · rintro ⟨d, t, rfl, ht⟩
        exact ⟨c :: d, t, rfl, by simp, ht⟩
      · rintro ⟨d, t, h, hd, ht⟩
        cases d with
        | nil => exact absurd rfl hd
        | cons e d' =>
            simp only [List.cons_append, List.cons.injEq] at h
            exact ⟨d', t, h.2, ht⟩

/-- The dot character is admitted by the regex character class. -/
theorem okChar_dot : okChar '.' = true := by decide

/-- The e-mail regex of the source accepts exactly the strings of the
spec's pattern. -/
theorem isValidEmail_iff (l : Str) : isValidEmail l = true ↔ emailPatternSpec l := by
  constructor
  · intro h
    unfold isValidEmail at h
    cases hs : splitLocal l with
    | none => rw [hs] at h; simp at h
    | some p =>
        obtain ⟨a, b⟩ := p
        rw [hs] at h
        simp only [Bool.and_eq_true, Bool.not_eq_true', List.isEmpty_eq_false,
          List.all_eq_true] at h
        obtain ⟨⟨⟨hne, hall⟩, ball⟩, hdot⟩ := h
        obtain ⟨hl, -⟩ := splitLocal_eq l a b hs
        obtain ⟨d, t, rfl, hd, ht⟩ := (hasInnerDot_iff b).mp hdot
        refine ⟨a, d, t, by rw [hl], hne, hd, ht, hall, ?_, ?_⟩
        · exact fun c hc => ball c (by simp [hc])
        · exact fun c hc => ball c (by simp [hc])
  · rintro ⟨a, d, t, rfl, ha, hd, ht, ca, cd, ct⟩
    have hnot : '@' ∉ a := by
      intro hmem
      have := ca _ hmem
      simp [okChar] at this
    unfold isValidEmail
    rw [splitLocal_append a _ hnot]
    simp only [Bool.and_eq_true, Bool.not_eq_true', List.isEmpty_eq_false,
      List.all_eq_true]
    refine ⟨⟨⟨ha, ca⟩, ?_⟩, ?_⟩
    · intro c hc
      rcases List.mem_append.mp hc with h1 | h1
      · exact cd c h1
      · rcases List.mem_cons.mp h1 with h2 | h2
        · exact h2 ▸ okChar_dot
        · exact ct c h2
    · exact (hasInnerDot_iff _).mpr ⟨d, t, rfl, hd, ht⟩

/-- Claim C3: validateStep(1) accepts an e-mail exactly when it matches the
pattern local at domain dot tld with non-empty whitespace-free segments,
and the e-mail "not-an-email" makes validateStep(1) fail with the
invalid-e-mail message. -/
theorem c3_email_pattern :
    (∀ l : Str, isValidEmail l = true ↔ emailPatternSpec l) ∧
    (validateStep1 ⟨"Jane Doe".toList, "not-an-email".toList⟩).valid = false ∧
    (validateStep1 ⟨"Jane Doe".toList, "not-an-email".toList⟩).message = some msgEmail :=
  ⟨isValidEmail_iff, by decide, by decide⟩

/-- Witness for C3: the pattern side holds at a concrete accepted e-mail. -/
theorem c3_email_pattern_witness : emailPatternSpec "a@b.c".toList :=
  (c3_email_pattern.1 "a@b.c".toList).mp (by decide)

/-- A string of nothing but whitespace trims to the empty string. -/
theorem trimL_eq_nil (l : Str) (h : l.all isJsSpace = true) : trimL l = [] := by
  have h1 : l.dropWhile isJsSpace = [] :=
    List.dropWhile_eq_nil_iff.mpr (fun x hx => List.all_eq_true.mp h x hx)
  simp [trimL, h1]

/-- Characterisation of the step-1 validation verdict. -/
theorem validateStep1_valid_iff (f : Step1Fields) :
    (validateStep1 f).valid = true ↔
      trimL f.name ≠ [] ∧ trimL f.email ≠ [] ∧
        isValidEmail (trimL f.email) = true := by
  simp only [validateStep1]
  split_ifs with h1 h2
  · simp [List.isEmpty_iff.mp h1]
  · rcases Bool.or_eq_true _ _ |>.mp h2 with h | h
    · simp [List.isEmpty_iff.mp h]
    · simp only [Bool.not_eq_true'] at h
      simp [h]
  · have hn : trimL f.name ≠ [] := fun h => h1 (by simp [h])
    have he : trimL f.email ≠ [] := fun h => h2 (by simp [h])
    have hv : isValidEmail (trimL f.email) = true := by
      cases hb : isValidEmail (trimL f.email) with
      | false => exact absurd (by simp [hb]) h2
      | true => rfl
    simp [hn, he, hv]

/-- Characterisation of the step-2 validation verdict. -/
theorem validateStep2_valid_iff (g : Step2Fields) :
    (validateStep2 g).valid = true ↔
      g.recordType ≠ [] ∧ g.type ≠ [] ∧ g.reason ≠ [] ∧ g.priority ≠ [] ∧
        trimL g.subject ≠ [] ∧ 10 ≤ (trimL g.description).length := by
  simp only [validateStep2]
  split_ifs with h1 h2 h3 h4 h5 h6
  · simp [List.isEmpty_iff.mp h1]
  · simp [List.isEmpty_iff.mp h2]
  · simp [List.isEmpty_iff.mp h3]
  · simp [List.isEmpty_iff.mp h4]
  · simp [List.isEmpty_iff.mp h5]
  · rcases Bool.or_eq_true _ _ |>.mp h6 with h | h
    · simp [List.isEmpty_iff.mp h]
    · have hd : (trimL g.description).length < 10 := of_decide_eq_true h
      constructor
      · intro hcon; cases hcon
      · rintro ⟨-, -, -, -, -, h10⟩
        exact absurd h10 (Nat.not_le.mpr hd)
  · have hr1 : g.recordType ≠ [] := fun h => h1 (by simp [h])
    have hr2 : g.type ≠ [] := fun h => h2 (by simp [h])
    have hr3 : g.reason ≠ [] := fun h => h3 (by simp [h])
    have hr4 : g.priority ≠ [] := fun h => h4 (by simp [h])
    have hr5 : trimL g.subject ≠ [] := fun h => h5 (by simp [h])
    have hr6 : 10 ≤ (trimL g.description).length := by
      by_contra hlt
      exact h6 (by simp [Nat.lt_of_not_le hlt])
    simp [hr1, hr2, hr3, hr4, hr5, hr6]

/-- If step-1 validation passes, no message is produced. -/
theorem validateStep1_valid_message (f : Step1Fields)
    (h : (validateStep1 f).valid = true) : (validateStep1 f).message = none := by
  revert h
  simp only [validateStep1]
  split_ifs <;> intro h <;> first | rfl | cases h

/-- If step-2 validation passes, no message is produced. -/
theorem validateStep2_valid_message (g : Step2Fields)
    (h : (validateStep2 g).valid = true) : (validateStep2 g).message = none := by
  revert h
  simp only [validateStep2]
  split_ifs <;> intro h <;> first | rfl | cases h

end WebToCase

namespace WebToCase

/-- Claim C1 counterexample: a step-2 state whose six required fields are
all non-empty (also after trimming) but whose 5-character description makes
validateStep(2) return invalid, against the claim's if-and-only-if. -/
theorem c1_counterexample :
    "a".toList ≠ ([] : Str) ∧ "b".toList ≠ ([] : Str) ∧ "c".toList ≠ ([] : Str) ∧
    "d".toList ≠ ([] : Str) ∧ trimL "e".toList ≠ ([] : Str) ∧
    trimL "short".toList ≠ ([] : Str) ∧
    (validateStep2 ⟨"a".toList, "b".toList, "c".toList, "d".toList,
      "e".toList, "short".toList⟩).valid = false := by decide

/-- Claim C1 (amended): for each step, validateStep returns invalid whenever
a required field is empty (text fields after trimming); step 1 is valid
exactly when the trimmed name and e-mail are non-empty and the e-mail
passes the pattern; step 2 is valid exactly when its required fields are
non-empty and the trimmed description has at least 10 characters; and a
fully filled step 2 with a 10-character description is accepted. -/
theorem c1_validate_steps (f : Step1Fields) (g : Step2Fields) :
    (trimL f.name = [] ∨ trimL f.email = [] → (validateStep1 f).valid = false) ∧
    ((validateStep1 f).valid = true ↔
      trimL f.name ≠ [] ∧ trimL f.email ≠ [] ∧
        isValidEmail (trimL f.email) = true) ∧
    (g.recordType = [] ∨ g.type = [] ∨ g.reason = [] ∨ g.priority = [] ∨
        trimL g.subject = [] ∨ trimL g.description = [] →
      (validateStep2 g).valid = false) ∧
    ((validateStep2 g).valid = true ↔
      g.recordType ≠ [] ∧ g.type ≠ [] ∧ g.reason ≠ [] ∧ g.priority ≠ [] ∧
        trimL g.subject ≠ [] ∧ 10 ≤ (trimL g.description).length) ∧
    (validateStep2 ⟨"a".toList, "b".toList, "c".toList, "d".toList,
      "subject".toList, "abcdefghij".toList⟩).valid = true := by
  refine ⟨?_, validateStep1_valid_iff f, ?_, validateStep2_valid_iff g, by decide⟩
  · intro h
    cases hv : (validateStep1 f).valid with
    | false => rfl
    | true =>
        obtain ⟨hn, he, -⟩ := (validateStep1_valid_iff f).mp hv
        rcases h with h | h
        · exact absurd h hn
        · exact absurd h he
  · intro h
    cases hv : (validateStep2 g).valid with
    | false => rfl
    | true =>
        obtain ⟨h1, h2, h3, h4, h5, h6⟩ := (validateStep2_valid_iff g).mp hv
        have hd : trimL g.description ≠ [] := by
          intro hnil
          rw [hnil] at h6
          simp at h6
        rcases h with h | h | h | h | h | h
        · exact absurd h h1
        · exact absurd h h2
        · exact absurd h h3
        · exact absurd h h4
        · exact absurd h h5
        · exact absurd h hd

/-- Witness for C1 at concrete empty fields. -/
theorem c1_validate_steps_witness :
    (validateStep1 ⟨[], []⟩).valid = false ∧
    (validateStep2 ⟨[], [], [], [], [], []⟩).valid = false :=
  ⟨(c1_validate_steps ⟨[], []⟩ ⟨[], [], [], [], [], []⟩).1 (Or.inl rfl),
   (c1_validate_steps ⟨[], []⟩ ⟨[], [], [], [], [], []⟩).2.2.1 (Or.inl rfl)⟩

/-- Claim C5: each step validation reports the message of the first failing
field in the fixed source order (and succeeds exactly when no check
fails); a successful validation leaves the error display cleared whatever
was shown before; and an empty name with the well-formed e-mail a at b dot
c fails step 1 with the missing-name message. -/
theorem c5_first_failure :
    (∀ g : Step2Fields, (validateStep2 g).message = firstFailing (step2Checks g)) ∧
    (∀ f : Step1Fields, (validateStep1 f).message = firstFailing (step1Checks f)) ∧
    (∀ (f : Step1Fields) (d : Option String), (validateStep1 f).valid = true →
      (runValidation (validateStep1 f) d).2 = none) ∧
    (∀ (g : Step2Fields) (d : Option String), (validateStep2 g).valid = true →
      (runValidation (validateStep2 g) d).2 = none) ∧
    (validateStep1 ⟨[], "a@b.c".toList⟩).valid = false ∧
    (validateStep1 ⟨[], "a@b.c".toList⟩).message = some msgName := by
  refine ⟨?_, ?_, ?_, ?_, by decide, by decide⟩
  · intro g
    simp only [validateStep2, step2Checks, firstFailing]
    split_ifs <;> rfl
  · intro f
    simp only [validateStep1, step1Checks, firstFailing]
    split_ifs <;> rfl
  · intro f d h
    simp [runValidation, validateStep1_valid_message f h, clearErrors]
  · intro g d h
    simp [runValidation, validateStep2_valid_message g h, clearErrors]

/-- Witness for C5: successful validations clear a previously shown message. -/
theorem c5_first_failure_witness :
    (runValidation (validateStep1 ⟨"Jane".toList, "a@b.c".toList⟩)
      (some msgName)).2 = none ∧
    (runValidation (validateStep2 ⟨"a".toList, "b".toList, "c".toList,
      "d".toList, "e".toList, "abcdefghij".toList⟩) (some msgName)).2 = none :=
  ⟨c5_first_failure.2.2.1 _ (some msgName) (by decide),
   c5_first_failure.2.2.2.1 _ (some msgName) (by decide)⟩

/-- Claim C9: validation trims the text fields — an all-whitespace name,
e-mail or subject is rejected as missing, the 10-character description
minimum is measured on the trimmed string, and a 12-character description
ending in three spaces counts as 9 characters and fails. -/
theorem c9_trimming :
    (∀ f : Step1Fields, f.name.all isJsSpace = true →
      validateStep1 f = ⟨false, some msgName⟩) ∧
    (∀ f : Step1Fields, trimL f.name ≠ [] → f.email.all isJsSpace = true →
      validateStep1 f = ⟨false, some msgEmail⟩) ∧
    (∀ g : Step2Fields, g.recordType ≠ [] → g.type ≠ [] → g.reason ≠ [] →
      g.priority ≠ [] → g.subject.all isJsSpace = true →
      validateStep2 g = ⟨false, some msgSubject⟩) ∧
    (∀ g : Step2Fields, (trimL g.description).length < 10 →
      (validateStep2 g).valid = false) ∧
    (trimL "abcdefghi   ".toList).length = 9 ∧
    validateStep2 ⟨"a".toList, "b".toList, "c".toList, "d".toList,
      "e".toList, "abcdefghi   ".toList⟩ = ⟨false, some msgDescription⟩ := by
  refine ⟨?_, ?_, ?_, ?_, by decide, by decide⟩
  · intro f h
    simp [validateStep1, trimL_eq_nil f.name h]
  · intro f hn he
    simp [validateStep1, trimL_eq_nil f.email he, List.isEmpty_eq_false.mpr hn]
  · intro g h1 h2 h3 h4 hs
    simp [validateStep2, trimL_eq_nil g.subject hs,
      List.isEmpty_eq_false.mpr h1, List.isEmpty_eq_false.mpr h2,
      List.isEmpty_eq_false.mpr h3, List.isEmpty_eq_false.mpr h4]
  · intro g h
    cases hv : (validateStep2 g).valid with
    | false => rfl
    | true =>
        have := ((validateStep2_valid_iff g).mp hv).2.2.2.2.2
        omega

/-- Witness for C9 at concrete whitespace-only and short inputs. -/
theorem c9_trimming_witness :
    validateStep1 ⟨"   ".toList, "a@b.c".toList⟩ = ⟨false, some msgName⟩ ∧
    validateStep1 ⟨"Jane".toList, "   ".toList⟩ = ⟨false, some msgEmail⟩ ∧
    validateStep2 ⟨"a".toList, "b".toList, "c".toList, "d".toList,
      " ".toList, "abcdefghij".toList⟩ = ⟨false, some msgSubject⟩ ∧
    (validateStep2 ⟨"a".toList, "b".toList, "c".toList, "d".toList,
      "e".toList, "tiny".toList⟩).valid = false :=
  ⟨c9_trimming.1 _ (by decide),
   c9_trimming.2.1 _ (by decide) (by decide),
   c9_trimming.2.2.1 _ (by decide) (by decide) (by decide) (by decide) (by decide),
   c9_trimming.2.2.2.1 _ (by decide)⟩

/-- Claim C6: with the priority unset, submission prevents the default
action, shows the priority-guard message, and neither reaches the
submitted state nor touches the submit button; with a priority set, the
submit button is disabled against resubmission. -/
theorem c6_submission_guard (s : SubmitState) :
    (s.priorityValue = [] →
      (handleFormSubmission s).defaultPrevented = true ∧
      (handleFormSubmission s).display = some msgPriority ∧
      (handleFormSubmission s).submitted = s.submitted ∧
      (handleFormSubmission s).submitBtnDisabled = s.submitBtnDisabled) ∧
    (s.priorityValue ≠ [] →
      (handleFormSubmission s).submitBtnDisabled = true ∧
      (handleFormSubmission s).defaultPrevented = s.defaultPrevented) := by
  constructor
  · intro h
    simp [handleFormSubmission, showError, clearErrors, h]
  · intro h
    simp [handleFormSubmission, List.isEmpty_eq_false.mpr h]

/-- Witness for C6 at an unset and a set priority. -/
theorem c6_submission_guard_witness :
    (handleFormSubmission ⟨[], false, none, false, false⟩).defaultPrevented = true ∧
    (handleFormSubmission ⟨[], false, none, false, false⟩).submitted = false ∧
    (handleFormSubmission ⟨"p1".toList, false, none, false, false⟩).submitBtnDisabled = true :=
  ⟨((c6_submission_guard ⟨[], false, none, false, false⟩).1 rfl).1,
   ((c6_submission_guard ⟨[], false, none, false, false⟩).1 rfl).2.2.1,
   ((c6_submission_guard ⟨"p1".toList, false, none, false, false⟩).2 (by decide)).1⟩

/-- Claim C7 counterexample: a priority select whose selected option has
value p1 and display text High Priority is shown in the review as the
coded value p1, not as its display text. -/
theorem c7_counterexample :
    (updateReview ⟨[], [], [], [], ⟨[], -1⟩, ⟨[], -1⟩, ⟨[], -1⟩,
      ⟨[("p1".toList, "High Priority".toList)], 0⟩,
      [], []⟩).priority = "p1".toList ∧
    getSelectText ⟨[("p1".toList, "High Priority".toList)], 0⟩ = "High Priority".toList ∧
    "p1".toList ≠ "High Priority".toList := by decide

/-- Claim C7 (amended): the review projection substitutes the select-option
display text for the department-category, request-type and issue-reason
fields but shows the raw select value for priority, renders every missing
value as the Not provided or Not selected placeholder, and truncates a
description longer than 150 characters to its first 150 characters plus
the ellipsis marker. -/
theorem c7_review_projection (f : ReviewFields) :
    (updateReview f).name = (if f.name = [] then notProvided else f.name) ∧
    (updateReview f).email = (if f.email = [] then notProvided else f.email) ∧
    (updateReview f).phone = (if f.phone = [] then notProvided else f.phone) ∧
    (updateReview f).company = (if f.company = [] then notProvided else f.company) ∧
    (updateReview f).recordType =
      (if getSelectText f.recordType = [] then notSelected
       else getSelectText f.recordType) ∧
    (updateReview f).type =
      (if getSelectText f.type = [] then notSelected else getSelectText f.type) ∧
    (updateReview f).reason =
      (if getSelectText f.reason = [] then notSelected else getSelectText f.reason) ∧
    (updateReview f).priority =
      (if selectValue f.priority = [] then notSelected else selectValue f.priority) ∧
    (updateReview f).subject = (if f.subject = [] then notProvided else f.subject) ∧
    (updateReview f).description =
      (if f.description = [] then notProvided
       else if f.description.length ≤ 150 then f.description
       else f.description.take 150 ++ ['.', '.', '.']) := by
  refine ⟨?_, ?_, ?_, ?_, ?_, ?_, ?_, ?_, ?_, ?_⟩ <;>
    simp only [updateReview, orDefault]
  · simp [List.isEmpty_iff]
  · simp [List.isEmpty_iff]
  · simp [List.isEmpty_iff]
  · simp [List.isEmpty_iff]
  · simp [List.isEmpty_iff]
  · simp [List.isEmpty_iff]
  · simp [List.isEmpty_iff]
  · simp [List.isEmpty_iff]
  · simp [List.isEmpty_iff]
  · by_cases hd : f.description = []
    · simp [hd, truncateText]
    · by_cases hl : f.description.length ≤ 150
      · simp [truncateText, hl, List.isEmpty_eq_false.mpr hd, hd]
      · have hne : f.description.take 150 ++ ['.', '.', '.'] ≠ [] := by simp
        simp [truncateText, hl, hd, List.isEmpty_eq_false.mpr hne]

/-- Claim C8: the review projection is a pure function of the field values
(two controller states agreeing on their fields project to the same
snapshot) and running it leaves the controller state unchanged, writing
only the review display. -/
theorem c8_project_review_pure :
    (∀ s t : FormState, s.fields = t.fields → projectReview s = projectReview t) ∧
    (∀ u : UIState, (runUpdateReview u).form = u.form) ∧
    (∀ u : UIState, (runUpdateReview u).reviewDisplay = projectReview u.form) := by
  refine ⟨?_, ?_, ?_⟩
  · intro s t h
    simp [projectReview, h]
  · intro u
    rfl
  · intro u
    rfl

/-- Witness for C8: two states sharing fields but at different steps give
the same snapshot. -/
theorem c8_project_review_pure_witness :
    projectReview ⟨⟨1, 3⟩, ⟨[], [], [], [], ⟨[], -1⟩, ⟨[], -1⟩, ⟨[], -1⟩,
      ⟨[], -1⟩, [], []⟩⟩ =
    projectReview ⟨⟨3, 3⟩, ⟨[], [], [], [], ⟨[], -1⟩, ⟨[], -1⟩, ⟨[], -1⟩,
      ⟨[], -1⟩, [], []⟩⟩ :=
  c8_project_review_pure.1 _ _ rfl

/-- Claim C10: after a save, loading restores exactly the non-empty saved
field values, keeps the current value of fields whose saved value was
empty, records the step in the snapshot but never restores it, and a load
with no backup changes nothing. -/
theorem c10_autosave_roundtrip (p q : PageState) :
    (saveFormData p).currentStep = p.currentStep ∧
    loadFormData (some (saveFormData p)) q =
      { name := if p.name = [] then q.name else p.name,
        email := if p.email = [] then q.email else p.email,
        phone := if p.phone = [] then q.phone else p.phone,
        company := if p.company = [] then q.company else p.company,
        recordType := if p.recordType = [] then q.recordType else p.recordType,
        type := if p.type = [] then q.type else p.type,
        reason := if p.reason = [] then q.reason else p.reason,
        priority := if p.priority = [] then q.priority else p.priority,
        subject := if p.subject = [] then q.subject else p.subject,
        description := if p.description = [] then q.description else p.description,
        currentStep := q.currentStep } ∧
    loadFormData none q = q := by
  refine ⟨rfl, ?_, rfl⟩
  simp [loadFormData, saveFormData, loadField, List.isEmpty_iff]

end WebToCase
